import Mathlib

/-!
Verification of the slide-document converter `pptx_to_md.py`
(repository `gemdale-sz-cc-skills`, path `skills/ops-analysis/scripts/`).

The converter consumes a parsed presentation (slides made of shapes, each
shape optionally carrying text, a paragraph structure, a table, a
placeholder type and a name) and renders a markdown document.  This file
is a shallow embedding of that program: each Python function is mirrored
by a Lean definition of the same name, operating on an explicit data
model of the parsed-presentation interface.  Strings are modelled by
`String`, Python `str.strip` by `pytrim`, Python `sep.join` by `pyJoin`,
Python substring membership (`a in b`) by `isInfixB` on character lists,
and the single-character `str.replace` calls by character-wise rewriting.

Python's `set` iteration order (used once, to deduplicate the
"Visual Elements" list) is not specified by the language across runs;
it is modelled by an explicit ordering parameter `setOrder` threaded
through `process_slide`, constrained by `validOrder` (the result of the
dedup is a duplicate-free list with exactly the members of its input).
-/

namespace PptxToMd

/-- Model of Python `str.strip()`: drop whitespace from both ends. -/
def pytrim (s : String) : String :=
  String.mk (((s.data.dropWhile Char.isWhitespace).reverse.dropWhile Char.isWhitespace).reverse)

/-- Model of Python `sep.join(parts)`. -/
def pyJoin (sep : String) : List String → String
  | [] => ""
  | x :: xs => xs.foldl (fun acc y => acc ++ sep ++ y) x

/-- `isPrefixB n h` : the character list `n` is a prefix of `h`. -/
def isPrefixB : List Char → List Char → Bool
  | [], _ => true
  | _ :: _, [] => false
  | a :: as, b :: bs => a == b && isPrefixB as bs

/-- `isInfixB n h` : the character list `n` occurs contiguously inside `h`
(model of Python's substring test `n in h`; the empty list is an infix of
everything, as in Python). -/
def isInfixB : List Char → List Char → Bool
  | n, [] => n.isEmpty
  | n, b :: bs => isPrefixB n (b :: bs) || isInfixB n bs

/-- Python `needle in haystack` on strings. -/
def pyIn (needle haystack : String) : Bool :=
  isInfixB needle.data haystack.data

/-- `sanitize_markdown` (source lines 108-114): models
`text.replace("\\", "\\\\")` — every backslash is doubled, all other
characters pass through unchanged. -/
def sanitize_markdown (text : String) : String :=
  String.mk (text.data.foldr (fun c acc => if c = '\\' then '\\' :: '\\' :: acc else c :: acc) [])

/-- Models `text.replace("|", "\\|")` as applied to table cells
(source lines 155 and 163). -/
def escapePipes (text : String) : String :=
  String.mk (text.data.foldr (fun c acc => if c = '|' then '\\' :: '|' :: acc else c :: acc) [])

/-- The shape-type classification exposed by the parsing collaborator
(`MSO_SHAPE_TYPE` in the source).  `other s` carries the printed form of
any type not named by the converter's description dictionary. -/
inductive ShapeType where
  | placeholder
  | picture
  | chart
  | group
  | line
  | oval
  | rectangle
  | roundedRectangle
  | autoShape
  | other (printed : String)
  deriving DecidableEq, Repr, BEq

/-- Printed form of a shape type, used by the source's fallback
description string. -/
def shapeTypeStr : ShapeType → String
  | .placeholder => "PLACEHOLDER (14)"
  | .picture => "PICTURE (13)"
  | .chart => "CHART (3)"
  | .group => "GROUP (6)"
  | .line => "LINE (9)"
  | .oval => "OVAL"
  | .rectangle => "RECTANGLE"
  | .roundedRectangle => "ROUNDED_RECTANGLE"
  | .autoShape => "AUTO_SHAPE (1)"
  | .other printed => printed

/-- Bullet-formatting metadata of a paragraph-properties element: which of
`buChar` / `buAutoNum` / `buBlip` children are present (source lines 73-75). -/
structure ParaProps where
  buChar : Bool
  buAutoNum : Bool
  buBlip : Bool
  deriving DecidableEq, Repr, BEq

/-- A paragraph of a shape's text frame as exposed by the parser:
raw text, indentation level, the optional paragraph-properties element
(`none` models the recoverable lookup failure of `pPr`), and the font
size of the first run when present. -/
structure Paragraph where
  text : String
  level : Nat
  pPr : Option ParaProps
  firstRunFontSize : Option Nat
  deriving DecidableEq, Repr, BEq

/-- A shape of a slide.  Optional fields model the `hasattr` probes of
the source: `text = none` means the shape has no `text` attribute,
`table = none` no `table` attribute (a present table is its rows of raw
cell strings), `textFrame = none` no `text_frame` attribute,
`placeholderFormatType = none` means `placeholder_format` is absent or
its `type` is not set. -/
structure Shape where
  shapeType : ShapeType
  text : Option String
  textFrame : Option (List Paragraph)
  table : Option (List (List String))
  placeholderFormatType : Option Nat
  name : String
  deriving DecidableEq, Repr, BEq

/-- The per-paragraph record built by `extract_paragraphs`
(source lines 62-66), plus the `used_as_header` mark set later by
`process_slide` (source line 247). -/
structure ParaInfo where
  text : String
  level : Nat
  is_bullet : Bool
  font_size : Option Nat
  used_as_header : Bool
  deriving DecidableEq, Repr, BEq

/-- Bullet classification of one paragraph (source lines 69-79): absent
metadata yields `false`; otherwise the flag is set when any of the three
bullet markers is present. -/
def bulletFlag : Option ParaProps → Bool
  | none => false
  | some props => props.buChar || props.buAutoNum || props.buBlip

/-- `extract_paragraphs` (source lines 49-88): paragraphs of the shape's
text frame whose trimmed text is non-empty, with trimmed text, level,
bullet flag and recorded font size. -/
def extract_paragraphs (s : Shape) : List ParaInfo :=
  match s.textFrame with
  | none => []
  | some paras =>
    paras.filterMap fun p =>
      if pytrim p.text = "" then none
      else some { text := pytrim p.text
                  level := p.level
                  is_bullet := bulletFlag p.pPr
                  font_size := p.firstRunFontSize
                  used_as_header := false }

/-- `extract_table_data` (source lines 91-105): the table's rows with
each cell text trimmed; `[]` when the shape has no table attribute. -/
def extract_table_data (s : Shape) : List (List String) :=
  match s.table with
  | none => []
  | some rows => rows.map fun r => r.map pytrim

/-- `get_shape_description` (source lines 169-198): the description
dictionary of the source, then the shape's name in parentheses when
non-empty. -/
def shapeTypeDescription : ShapeType → String
  | .picture => "Image"
  | .chart => "Chart"
  | .group => "Grouped content"
  | .line => "Line"
  | .oval => "Oval/Circle"
  | .rectangle => "Rectangle/Box"
  | .roundedRectangle => "Rounded rectangle"
  | .autoShape => "Shape"
  | t => "Shape type " ++ shapeTypeStr t

/-- `get_shape_description` (source lines 169-198). -/
def get_shape_description (s : Shape) : String :=
  let desc := shapeTypeDescription s.shapeType
  if s.name ≠ "" then desc ++ " (" ++ s.name ++ ")" else desc

/-- The placeholder gate of the title scan (source lines 31-34):
shape type is PLACEHOLDER and `placeholder_format.type in (14, 15)`
(the source's comment reads these as Header and Title). -/
def titleHeaderPlaceholderB (s : Shape) : Bool :=
  s.shapeType == ShapeType.placeholder &&
    (s.placeholderFormatType == some 14 || s.placeholderFormatType == some 15)

/-- First loop of `get_slide_title` (source lines 30-36): the trimmed
text of the first Title/Header placeholder with non-empty trimmed text. -/
def findTitlePlaceholderText : List Shape → Option String
  | [] => none
  | s :: rest =>
    match s.text with
    | some t =>
      if titleHeaderPlaceholderB s && pytrim t != "" then some (pytrim t)
      else findTitlePlaceholderText rest
    | none => findTitlePlaceholderText rest

/-- Second loop of `get_slide_title` (source lines 39-44): the first
shape whose trimmed text is non-empty, under 100 characters and free of
line breaks. -/
def findFallbackTitle : List Shape → Option String
  | [] => none
  | s :: rest =>
    match s.text with
    | some t =>
      let txt := pytrim t
      if txt != "" && txt.data.length < 100 && !(txt.data.contains '\n') then some txt
      else findFallbackTitle rest
    | none => findFallbackTitle rest

/-- `get_slide_title` (source lines 23-46). -/
def get_slide_title (shapes : List Shape) : String :=
  match findTitlePlaceholderText shapes with
  | some t => t
  | none =>
    match findFallbackTitle shapes with
    | some t => t
    | none => "Untitled"

/-- The `has_content` test of `process_slide` (source lines 216-219):
the shape has a `text` attribute with non-empty trimmed text, or a
`table` attribute. -/
def hasContentB (s : Shape) : Bool :=
  (match s.text with
   | some t => pytrim t != ""
   | none => false) || s.table.isSome

/-- The title-duplication test of `process_slide` (source line 230):
the shape's trimmed text equals the resolved title, or is under 100
characters and a substring of it. -/
def titleMatchB (title : String) (s : Shape) : Bool :=
  let st := pytrim (s.text.getD "")
  st == title || (st.data.length < 100 && pyIn st title)

/-- A shape the classification loop skips as the title shape (source
lines 227-232), given that no earlier shape was skipped: it has content,
has a `text` attribute, and its trimmed text matches the title. -/
def skipEligibleB (title : String) (s : Shape) : Bool :=
  hasContentB s && s.text.isSome && titleMatchB title s

/-- A rendering-time grouping of one text shape's paragraphs
(source lines 250-253). -/
structure ContentSection where
  title : Option String
  paragraphs : List ParaInfo
  deriving DecidableEq, Repr, BEq

/-- Section-title inference (source lines 242-248): the first paragraph
that is non-bullet and under 50 characters becomes the section title and
is marked `used_as_header`; all other paragraphs are untouched. -/
def markSectionHeader : List ParaInfo → Option String × List ParaInfo
  | [] => (none, [])
  | p :: rest =>
    if !p.is_bullet && p.text.data.length < 50 then
      (some p.text, { p with used_as_header := true } :: rest)
    else
      let r := markSectionHeader rest
      (r.1, p :: r.2)

/-- Build the `ContentSection` record queued by `process_slide`
(source lines 250-253). -/
def mkContentSection (ps : List ParaInfo) : ContentSection :=
  let r := markSectionHeader ps
  { title := r.1, paragraphs := r.2 }

/-- The mutable state of the classification loop of `process_slide`
(source lines 209-212). -/
structure SlideAcc where
  titleShapeFound : Bool
  contentSections : List ContentSection
  tables : List (List (List String))
  otherShapes : List String
  deriving DecidableEq, Repr, BEq

/-- The loop body of the classification pass of `process_slide`
(source lines 214-253). -/
def classifyStep (title : String) (acc : SlideAcc) (s : Shape) : SlideAcc :=
  if !hasContentB s then
    let desc := get_shape_description s
    if desc != "" then { acc with otherShapes := acc.otherShapes ++ [desc] } else acc
  else if !acc.titleShapeFound && s.text.isSome && titleMatchB title s then
    { acc with titleShapeFound := true }
  else if s.table.isSome then
    let td := extract_table_data s
    if td.isEmpty then acc else { acc with tables := acc.tables ++ [td] }
  else
    let ps := extract_paragraphs s
    if ps.isEmpty then acc else { acc with contentSections := acc.contentSections ++ [mkContentSection ps] }

/-- The initial accumulator of the classification loop. -/
def initAcc : SlideAcc := ⟨false, [], [], []⟩

/-- A run of the whole classification loop on a slide's shapes. -/
def classifySlide (title : String) (shapes : List Shape) : SlideAcc :=
  shapes.foldl (classifyStep title) initAcc

/-- `'#' * n`. -/
def hashes (n : Nat) : String :=
  String.mk (List.replicate n '#')

/-- `'  ' * level`. -/
def indentSpaces (level : Nat) : String :=
  String.mk (List.replicate (2 * level) ' ')

/-- The loop body of `paragraphs_to_markdown` (source lines 125-141):
sanitize the text, drop it when empty, then render as sub-header
(non-bullet and sanitized length under 80), bullet line, or plain line. -/
def paraLine (base_level : Nat) (para : ParaInfo) : Option String :=
  let text := sanitize_markdown para.text
  if text = "" then none
  else if !para.is_bullet && text.data.length < 80 then
    some (hashes base_level ++ " " ++ text)
  else if para.is_bullet then
    some (indentSpaces para.level ++ "* " ++ text)
  else
    some text

/-- `paragraphs_to_markdown` (source lines 117-143). -/
def paragraphs_to_markdown (paragraphs : List ParaInfo) (base_level : Nat) : String :=
  if paragraphs.isEmpty then ""
  else
    let lines := paragraphs.foldl
      (fun lines para =>
        match paraLine base_level para with
        | some l => lines ++ [l]
        | none => lines) []
    pyJoin "\n" lines

/-- `table_to_markdown` (source lines 146-166): empty grid or empty
first row yields the empty string; otherwise a header line, a separator
line and one line per data row, every cell sanitized and pipe-escaped. -/
def table_to_markdown (table_data : List (List String)) : String :=
  match table_data with
  | [] => ""
  | row0 :: rest =>
    if row0.isEmpty then ""
    else
      let headers := row0.map fun cell => escapePipes (sanitize_markdown cell)
      let headerLine := "| " ++ pyJoin " | " headers ++ " |"
      let sepLine := "|" ++ pyJoin "|" (List.replicate headers.length "---") ++ "|"
      let dataLines := rest.map fun row =>
        "| " ++ pyJoin " | " (row.map fun cell => escapePipes (sanitize_markdown cell)) ++ " |"
      pyJoin "\n" (headerLine :: sepLine :: dataLines)

/-- Rendering of one content section (source lines 256-266). -/
def renderSection (sec : ContentSection) : List String :=
  (match sec.title with
   | some t => if t = "" then [] else ["\n## " ++ sanitize_markdown t]
   | none => []) ++
  (if (sec.paragraphs.filter fun p => !p.used_as_header).isEmpty then []
   else [paragraphs_to_markdown (sec.paragraphs.filter fun p => !p.used_as_header) 3]) ++
  [""]

/-- Rendering of all content sections (source lines 256-266). -/
def renderSections (secs : List ContentSection) : List String :=
  secs.foldr (fun sec acc => renderSection sec ++ acc) []

/-- Rendering of the queued tables (source lines 269-272): every queued
grid gets a "Data Table" heading followed by its markdown table. -/
def renderTables (tables : List (List (List String))) : List String :=
  tables.foldr (fun td acc => ["\n## Data Table\n", table_to_markdown td, ""] ++ acc) []

/-- Rendering of the decorative-shape descriptions (source lines
275-279): `setOrder` models the iteration order of `set(other_shapes)`. -/
def renderOthers (setOrder : List String → List String) (others : List String) : List String :=
  if others.isEmpty then []
  else ["\n## Visual Elements\n"] ++ (setOrder others).map (fun desc => "- " ++ desc) ++ [""]

/-- `process_slide` (source lines 201-281), parameterized by the set
iteration order used for the "Visual Elements" deduplication. -/
def process_slide (setOrder : List String → List String) (shapes : List Shape) (slide_num : Nat) : String :=
  let title := get_slide_title shapes
  let acc := classifySlide title shapes
  let md_lines := ["\n# Slide " ++ Nat.repr slide_num ++ " - " ++ title ++ "\n"] ++
    renderSections acc.contentSections ++
    renderTables acc.tables ++
    renderOthers setOrder acc.otherShapes
  pyJoin "\n" md_lines

/-- The indexed slide loop of `process_pptx_file` (source lines 302-305). -/
def renderSlides (setOrder : List String → List String) (n : Nat) : List (List Shape) → List String
  | [] => []
  | sl :: rest => process_slide setOrder sl n :: renderSlides setOrder (n + 1) rest

/-- The markdown document assembled by `process_pptx_file` (source lines
294-312): document title from the file stem, provenance line, horizontal
rule, then every slide's block, joined with newlines. -/
def render_document (setOrder : List String → List String) (stem name : String)
    (slides : List (List Shape)) : String :=
  pyJoin "\n" (["# " ++ stem ++ "\n", "*Converted from " ++ name ++ "*\n", "---\n"] ++
    renderSlides setOrder 1 slides)

/-- Written from the spec's words for claim C1 (title resolution,
ordered, first match wins): the first Title/Header placeholder with
non-empty trimmed text; otherwise the first shape with non-empty trimmed
text under 100 characters and without a line break; otherwise
"Untitled".  To be compared with `get_slide_title`. -/
def slideTitleSpec (shapes : List Shape) : String :=
  match shapes.find? (fun s => titleHeaderPlaceholderB s && pytrim (s.text.getD "") != "") with
  | some s => pytrim (s.text.getD "")
  | none =>
    match shapes.find?
        (fun s =>
          pytrim (s.text.getD "") != "" &&
          (pytrim (s.text.getD "")).data.length < 100 &&
          !((pytrim (s.text.getD "")).data.contains '\n')) with
    | some s => pytrim (s.text.getD "")
    | none => "Untitled"

/-- Written from the spec's words for claim C5 (per-paragraph rendering
rule, amended to measure the escaped text): the paragraph's escaped text
renders as a sub-heading when non-bullet and under 80 characters, as an
indented bullet line when the bullet flag is set, and as a plain line
otherwise; empty text renders nothing.  To be compared with
`paragraphs_to_markdown`. -/
def renderParaSpec (base_level : Nat) (p : ParaInfo) : Option String :=
  let text := sanitize_markdown p.text
  if text = "" then none
  else if !p.is_bullet && text.data.length < 80 then some (hashes base_level ++ " " ++ text)
  else if p.is_bullet then some (indentSpaces p.level ++ "* " ++ text)
  else some text

/-- Erase the recorded font size of a parsed paragraph (claim C10). -/
def scrubParagraph (p : Paragraph) : Paragraph :=
  { p with firstRunFontSize := none }

/-- Erase the font sizes of all paragraphs of a shape (claim C10). -/
def scrubShape (s : Shape) : Shape :=
  { s with textFrame := s.textFrame.map fun ps => ps.map scrubParagraph }

/-- Erase the recorded font size of an extracted paragraph record
(claim C10). -/
def scrubInfo (p : ParaInfo) : ParaInfo :=
  { p with font_size := none }

/-- Erase the font sizes inside a queued content section (claim C10). -/
def scrubSection (cs : ContentSection) : ContentSection :=
  { cs with paragraphs := cs.paragraphs.map scrubInfo }

/-- Erase the font sizes inside a classification accumulator (claim C10). -/
def scrubAcc (acc : SlideAcc) : SlideAcc :=
  { acc with contentSections := acc.contentSections.map scrubSection }

/-- A function is a valid model of Python `set` iteration exactly when
its output is duplicate-free and has the same members as its input. -/
def validOrder (f : List String → List String) : Prop :=
  ∀ xs : List String, (f xs).Nodup ∧ ∀ a : String, a ∈ f xs ↔ a ∈ xs

/-- One concrete valid set order, used to evaluate the converter on
concrete inputs. -/
def ordDedup (xs : List String) : List String := xs.dedup

/-- `process_pptx_file` (source lines 284-319) catches any exception
raised while converting one file and reports failure; the conversion
outcome of one file is modelled as `Except` over an error message. -/
def process_pptx_file (convert : String → Except String String) (f : String) : Bool :=
  match convert f with
  | .ok _ => true
  | .error _ => false

/-- The per-file loop of `main` (source lines 384-387) together with the
error reports of `process_pptx_file` (source line 318): it returns the
success count and the list of (file, message) failure reports, visiting
every file regardless of earlier failures. -/
def runBatch (convert : String → Except String String) (files : List String) :
    Nat × List (String × String) :=
  files.foldl
    (fun acc f =>
      match convert f with
      | .ok _ => (acc.1 + 1, acc.2)
      | .error e => (acc.1, acc.2 ++ [(f, e)]))
    (0, [])

/-- The exit status of `main` (source lines 368-391): 1 when no files
were discovered, otherwise 0 exactly when every file converted. -/
def mainExit (convert : String → Except String String) (files : List String) : Nat :=
  if files.isEmpty then 1
  else if (runBatch convert files).1 = files.length then 0 else 1

/-! ### Helper lemmas -/

theorem pytrim_empty : pytrim "" = "" := rfl

theorem findTitlePlaceholderText_eq (shapes : List Shape) :
    findTitlePlaceholderText shapes
      = (shapes.find? fun s => titleHeaderPlaceholderB s && pytrim (s.text.getD "") != "").map
          fun s => pytrim (s.text.getD "") := by
  induction shapes with
  | nil => rfl
  | cons s rest ih =>
    rw [List.find?_cons]
    cases ht : s.text with
    | none =>
      have hsc : (titleHeaderPlaceholderB s && pytrim ((none : Option String).getD "") != "") = false := by
        rw [show (pytrim ((none : Option String).getD "") != "") = false from rfl, Bool.and_false]
      simp only [hsc]
      simpa [findTitlePlaceholderText, ht] using ih
    | some t =>
      simp only [Option.getD_some]
      cases hc : (titleHeaderPlaceholderB s && pytrim t != "") with
      | true =>
        simp only [hc]
        simp [findTitlePlaceholderText, ht, hc]
      | false =>
        simp only [hc]
        simpa [findTitlePlaceholderText, ht, hc] using ih

theorem findFallbackTitle_eq (shapes : List Shape) :
    findFallbackTitle shapes
      = (shapes.find? fun s =>
          pytrim (s.text.getD "") != "" &&
          (pytrim (s.text.getD "")).data.length < 100 &&
          !((pytrim (s.text.getD "")).data.contains '\n')).map
          fun s => pytrim (s.text.getD "") := by
  induction shapes with
  | nil => rfl
  | cons s rest ih =>
    rw [List.find?_cons]
    cases ht : s.text with
    | none =>
      have hsc : (pytrim ((none : Option String).getD "") != "" &&
          (pytrim ((none : Option String).getD "")).data.length < 100 &&
          !((pytrim ((none : Option String).getD "")).data.contains '\n')) = false := by
        rw [show (pytrim ((none : Option String).getD "") != "") = false from rfl]
        simp
      simp only [hsc]
      simpa [findFallbackTitle, ht] using ih
    | some t =>
      simp only [Option.getD_some]
      cases hc : (pytrim t != "" && decide ((pytrim t).data.length < 100) &&
          !((pytrim t).data.contains '\n')) with
      | true =>
        simp only [hc, Option.map_some', ht, Option.getD_some]
        simp only [findFallbackTitle, ht]
        rw [if_pos hc]
      | false =>
        simp only [hc]
        rw [← ih]
        simp only [findFallbackTitle, ht]
        have hn : ¬((pytrim t != "" && decide ((pytrim t).data.length < 100) &&
            !((pytrim t).data.contains '\n')) = true) := by
          rw [hc]; exact Bool.false_ne_true
        rw [if_neg hn]

theorem findTitlePlaceholderText_ne_empty (shapes : List Shape) (t : String)
    (h : findTitlePlaceholderText shapes = some t) : t ≠ "" := by
  rw [findTitlePlaceholderText_eq] at h
  cases hf : shapes.find? (fun s => titleHeaderPlaceholderB s && pytrim (s.text.getD "") != "") with
  | none => rw [hf] at h; exact absurd h (by simp)
  | some s =>
    rw [hf] at h
    have hp := List.find?_some hf
    rw [Bool.and_eq_true] at hp
    have h3 : pytrim (s.text.getD "") ≠ "" := by simpa using hp.2
    simp only [Option.map_some'] at h
    exact (Option.some.inj h) ▸ h3

theorem findFallbackTitle_ne_empty (shapes : List Shape) (t : String)
    (h : findFallbackTitle shapes = some t) : t ≠ "" := by
  rw [findFallbackTitle_eq] at h
  cases hf : shapes.find? (fun s =>
      pytrim (s.text.getD "") != "" &&
      (pytrim (s.text.getD "")).data.length < 100 &&
      !((pytrim (s.text.getD "")).data.contains '\n')) with
  | none => rw [hf] at h; exact absurd h (by simp)
  | some s =>
    rw [hf] at h
    have hp := List.find?_some hf
    rw [Bool.and_eq_true, Bool.and_eq_true] at hp
    have h3 : pytrim (s.text.getD "") ≠ "" := by simpa using hp.1.1
    simp only [Option.map_some'] at h
    exact (Option.some.inj h) ▸ h3

/-! ### Claim theorems -/

/-- C1: for every slide, title resolution follows the ordered algorithm
with first match winning — the trimmed text of the first Title/Header
placeholder with non-empty trimmed text, else the first shape's trimmed
text that is non-empty, under 100 characters and without a line break,
else the literal "Untitled" — hence the resolved title is never the
empty string. -/
theorem C1_title_resolution (shapes : List Shape) :
    get_slide_title shapes = slideTitleSpec shapes ∧ get_slide_title shapes ≠ "" := by
  unfold get_slide_title slideTitleSpec
  rw [findTitlePlaceholderText_eq, findFallbackTitle_eq]
  cases hf : shapes.find? (fun s => titleHeaderPlaceholderB s && pytrim (s.text.getD "") != "") with
  | some s =>
    constructor
    · rfl
    · have hp := List.find?_some hf
      rw [Bool.and_eq_true] at hp
      simpa using hp.2
  | none =>
    cases hg : shapes.find? (fun s =>
        pytrim (s.text.getD "") != "" &&
        (pytrim (s.text.getD "")).data.length < 100 &&
        !((pytrim (s.text.getD "")).data.contains '\n')) with
    | some s =>
      constructor
      · rfl
      · have hp := List.find?_some hg
        rw [Bool.and_eq_true, Bool.and_eq_true] at hp
        simpa using hp.1.1
    | none => exact ⟨rfl, by decide⟩

theorem runBatch_foldl (convert : String → Except String String) :
    ∀ (files : List String) (n : Nat) (log : List (String × String)),
      files.foldl
        (fun acc f =>
          match convert f with
          | .ok _ => (acc.1 + 1, acc.2)
          | .error e => (acc.1, acc.2 ++ [(f, e)]))
        (n, log)
      = (n + files.countP (fun f => process_pptx_file convert f),
         log ++ files.filterMap (fun f =>
           match convert f with
           | .ok _ => none
           | .error e => some (f, e))) := by
  intro files
  induction files with
  | nil => intro n log; simp
  | cons f rest ih =>
    intro n log
    cases hc : convert f with
    | ok v =>
      have hp : process_pptx_file convert f = true := by
        simp [process_pptx_file, hc]
      simp only [List.foldl_cons, hc, List.countP_cons, List.filterMap_cons, hp, if_pos]
      rw [ih]
      refine Prod.ext ?_ ?_
      · show n + 1 + _ = n + (_ + 1)
        omega
      · show log ++ _ = log ++ _
        simp [hc]
    | error e =>
      have hp : process_pptx_file convert f = false := by
        simp [process_pptx_file, hc]
      simp only [List.foldl_cons, hc, List.countP_cons, List.filterMap_cons, hp]
      rw [ih]
      refine Prod.ext ?_ ?_
      · show n + _ = n + (_ + if false = true then 1 else 0)
        simp
      · show (log ++ [(f, e)]) ++ _ = log ++ _
        simp [hc]

theorem runBatch_eq (convert : String → Except String String) (files : List String) :
    runBatch convert files
      = (files.countP (fun f => process_pptx_file convert f),
         files.filterMap (fun f =>
           match convert f with
           | .ok _ => none
           | .error e => some (f, e))) := by
  unfold runBatch
  rw [runBatch_foldl]
  simp

/-- C6: the batch driver's exit status is 0 iff at least one input file
was discovered and every discovered file converted without an
unrecovered error, and 1 otherwise (including zero files found); an
exception while converting one file is caught at the per-file boundary
(`process_pptx_file` reports `false` instead of propagating), is
reported with the file name and message, counted as a failure, and the
remaining files are still processed (the tally and the report list range
over all files). -/
theorem C6_exit_status (convert : String → Except String String) (files : List String) :
    (mainExit convert files = 0 ↔
      files ≠ [] ∧ ∀ f ∈ files, process_pptx_file convert f = true) ∧
    (mainExit convert files = 0 ∨ mainExit convert files = 1) ∧
    (runBatch convert files).1 = files.countP (fun f => process_pptx_file convert f) ∧
    (runBatch convert files).2
      = files.filterMap (fun f =>
          match convert f with
          | .ok _ => none
          | .error e => some (f, e)) := by
  refine ⟨?_, ?_, ?_, ?_⟩
  · unfold mainExit
    by_cases he : files.isEmpty
    · simp only [he, if_true]
      constructor
      · intro h; exact absurd h (by decide)
      · rintro ⟨hne, -⟩
        exact absurd (List.isEmpty_iff.mp he) hne
    · simp only [he, if_false]
      rw [runBatch_eq]
      by_cases hall : files.countP (fun f => process_pptx_file convert f) = files.length
      · simp only [hall, if_true]
        constructor
        · intro _
          refine ⟨fun h => he (by simp [h]), ?_⟩
          exact List.countP_eq_length.mp hall
        · intro _; rfl
      · simp only [hall, if_false]
        constructor
        · intro h; exact absurd h (by decide)
        · rintro ⟨-, hA⟩
          exact absurd (List.countP_eq_length.mpr hA) hall
  · unfold mainExit
    by_cases he : files.isEmpty
    · simp [he]
    · by_cases hall : (runBatch convert files).1 = files.length <;> simp [he, hall]
  · rw [runBatch_eq]
  · rw [runBatch_eq]

/-- C7: a paragraph whose paragraph-properties lookup fails is extracted
without error and classified non-bullet; the bullet flag of an extracted
paragraph is true exactly when its metadata declares an explicit bullet
character, automatic numbering, or an image bullet. -/
theorem C7_bullet_default (s : Shape) :
    (∀ pi ∈ extract_paragraphs s, ∃ p ∈ s.textFrame.getD [],
      pi.text = pytrim p.text ∧ pi.level = p.level ∧ pi.is_bullet = bulletFlag p.pPr) ∧
    (∀ p ∈ s.textFrame.getD [], pytrim p.text ≠ "" →
      (⟨pytrim p.text, p.level, bulletFlag p.pPr, p.firstRunFontSize, false⟩ : ParaInfo)
        ∈ extract_paragraphs s) ∧
    bulletFlag none = false ∧
    (∀ props : ParaProps, bulletFlag (some props) = true ↔
      (props.buChar = true ∨ props.buAutoNum = true ∨ props.buBlip = true)) := by
  refine ⟨?_, ?_, rfl, ?_⟩
  · intro pi hpi
    cases htf : s.textFrame with
    | none => rw [extract_paragraphs, htf] at hpi; exact absurd hpi (by simp)
    | some paras =>
      rw [extract_paragraphs, htf] at hpi
      rcases List.mem_filterMap.mp hpi with ⟨p, hp, hf⟩
      by_cases hz : pytrim p.text = ""
      · rw [if_pos hz] at hf; exact absurd hf (by simp)
      · rw [if_neg hz] at hf
        refine ⟨p, by simpa [htf] using hp, ?_⟩
        cases hf
        exact ⟨rfl, rfl, rfl⟩
  · intro p hp hz
    cases htf : s.textFrame with
    | none => rw [htf] at hp; exact absurd hp (by simp)
    | some paras =>
      rw [htf] at hp
      rw [extract_paragraphs, htf]
      exact List.mem_filterMap.mpr ⟨p, by simpa using hp, by rw [if_neg hz]⟩
  · intro props
    simp [bulletFlag, or_assoc]

/-- Witness for C7 at a concrete shape: one paragraph with absent
metadata is extracted as non-bullet. -/
theorem C7_bullet_default_witness :
    (⟨"hello", 2, false, none, false⟩ : ParaInfo)
      ∈ extract_paragraphs ⟨ShapeType.other "TEXT_BOX (17)", some " hello ",
          some [⟨" hello ", 2, none, none⟩], none, none, "b"⟩ := by
  have h := (C7_bullet_default ⟨ShapeType.other "TEXT_BOX (17)", some " hello ",
      some [⟨" hello ", 2, none, none⟩], none, none, "b"⟩).2.1
  have h2 := h ⟨" hello ", 2, none, none⟩ (List.mem_singleton.mpr rfl) (by decide)
  simpa using h2

/-- Decorative shape: no non-empty text and no table attribute
(the `not has_content` branch of the classification loop). -/
def isDecorativeB (s : Shape) : Bool := !hasContentB s

/-- Table-bearing shape: has content and a table attribute. -/
def isTableBearingB (s : Shape) : Bool := hasContentB s && s.table.isSome

/-- Paragraph-bearing text shape: has content and no table attribute. -/
def isTextBearingB (s : Shape) : Bool := hasContentB s && !s.table.isSome

/-- C9: every shape falls in exactly one of the three categories
(table-bearing / paragraph-bearing text / decorative-with-no-text), and
one classification step never touches a queue of another category: at
least two of the three queues are always left unchanged, and each queue
can only grow on a shape of its own category. -/
theorem C9_classification_exclusive (title : String) (acc : SlideAcc) (s : Shape) :
    ((if isDecorativeB s then 1 else 0) + (if isTableBearingB s then 1 else 0) +
      (if isTextBearingB s then 1 else 0) = 1) ∧
    ((classifyStep title acc s).contentSections = acc.contentSections ∧
       (classifyStep title acc s).tables = acc.tables ∨
     (classifyStep title acc s).contentSections = acc.contentSections ∧
       (classifyStep title acc s).otherShapes = acc.otherShapes ∨
     (classifyStep title acc s).tables = acc.tables ∧
       (classifyStep title acc s).otherShapes = acc.otherShapes) ∧
    (isDecorativeB s = false → (classifyStep title acc s).otherShapes = acc.otherShapes) ∧
    (isTableBearingB s = false → (classifyStep title acc s).tables = acc.tables) ∧
    (isTextBearingB s = false → (classifyStep title acc s).contentSections = acc.contentSections) := by
  cases hc : hasContentB s with
  | false =>
    have hst : classifyStep title acc s
        = (if get_shape_description s != "" then
            { acc with otherShapes := acc.otherShapes ++ [get_shape_description s] } else acc) := by
      simp [classifyStep, hc]
    refine ⟨by simp [isDecorativeB, isTableBearingB, isTextBearingB, hc], ?_, ?_, ?_, ?_⟩
    · rw [hst]; split <;> simp
    · intro h; rw [isDecorativeB, hc] at h; exact absurd h (by decide)
    · intro _; rw [hst]; split <;> rfl
    · intro _; rw [hst]; split <;> rfl
  | true =>
    cases hsk : (!acc.titleShapeFound && s.text.isSome && titleMatchB title s) with
    | true =>
      have hst : classifyStep title acc s = { acc with titleShapeFound := true } := by
        simp only [classifyStep, hc]
        rw [if_neg (by decide), if_pos hsk]
      refine ⟨?_, ?_, ?_, ?_, ?_⟩
      · cases ht : s.table.isSome <;>
          simp [isDecorativeB, isTableBearingB, isTextBearingB, hc, ht]
      · rw [hst]; exact Or.inl ⟨rfl, rfl⟩
      · intro _; rw [hst]
      · intro _; rw [hst]
      · intro _; rw [hst]
    | false =>
      cases ht : s.table.isSome with
      | true =>
        have hst : classifyStep title acc s
            = (if (extract_table_data s).isEmpty then acc
               else { acc with tables := acc.tables ++ [extract_table_data s] }) := by
          simp only [classifyStep, hc]
          rw [if_neg (by decide), if_neg (by rw [hsk]; exact Bool.false_ne_true), if_pos (by rw [ht])]
        refine ⟨by simp [isDecorativeB, isTableBearingB, isTextBearingB, hc, ht], ?_, ?_, ?_, ?_⟩
        · rw [hst]; right; left; split <;> simp
        · intro _; rw [hst]; split <;> rfl
        · intro h; rw [isTableBearingB, hc, ht] at h; exact absurd h (by decide)
        · intro _; rw [hst]; split <;> rfl
      | false =>
        have hst : classifyStep title acc s
            = (if (extract_paragraphs s).isEmpty then acc
               else { acc with contentSections :=
                        acc.contentSections ++ [mkContentSection (extract_paragraphs s)] }) := by
          simp only [classifyStep, hc]
          rw [if_neg (by decide), if_neg (by rw [hsk]; exact Bool.false_ne_true),
            if_neg (by rw [ht]; exact Bool.false_ne_true)]
        refine ⟨by simp [isDecorativeB, isTableBearingB, isTextBearingB, hc, ht], ?_, ?_, ?_, ?_⟩
        · rw [hst]; right; right; split <;> simp
        · intro _; rw [hst]; split <;> rfl
        · intro _; rw [hst]; split <;> rfl
        · intro h; rw [isTextBearingB, hc, ht] at h; exact absurd h (by decide)

/-- C3 counterexample: a table shape whose extracted grid is `[[]]`
(one row with no cells — an "empty grid" in the claim's sense) still
gets a "Data Table" heading in the rendered slide. -/
theorem C3_counterexample :
    extract_table_data ⟨ShapeType.other "TABLE (19)", none, none, some [[]], none, "t1"⟩ = [[]] ∧
    (classifySlide
        (get_slide_title [⟨ShapeType.other "TABLE (19)", none, none, some [[]], none, "t1"⟩])
        [⟨ShapeType.other "TABLE (19)", none, none, some [[]], none, "t1"⟩]).tables = [[[]]] ∧
    table_to_markdown [[]] = "" ∧
    pyIn "## Data Table"
      (process_slide ordDedup
        [⟨ShapeType.other "TABLE (19)", none, none, some [[]], none, "t1"⟩] 1) = true := by
  refine ⟨rfl, rfl, rfl, ?_⟩
  decide

/-- C3 amended: a table shape with no rows at all is never queued, so it
produces no output; a queued grid whose first row is empty produces no
table lines (`table_to_markdown` returns the empty string), but the
"Data Table" heading is still emitted for it, since the rendering loop
emits the heading for every queued grid. -/
theorem C3_empty_table_rendering :
    (∀ (title : String) (acc : SlideAcc) (st : ShapeType) (tx : Option String)
        (tf : Option (List Paragraph)) (pft : Option Nat) (nm : String),
      (classifyStep title acc ⟨st, tx, tf, some [], pft, nm⟩).tables = acc.tables) ∧
    table_to_markdown [] = "" ∧
    (∀ rest : List (List String), table_to_markdown ([] :: rest) = "") ∧
    (∀ (td : List (List String)) (ts : List (List (List String))),
      renderTables (td :: ts) = ["\n## Data Table\n", table_to_markdown td, ""] ++ renderTables ts) := by
  refine ⟨?_, rfl, fun rest => rfl, fun td ts => rfl⟩
  intro title acc st tx tf pft nm
  cases hc : hasContentB ⟨st, tx, tf, some [], pft, nm⟩ with
  | false =>
    have hst : classifyStep title acc ⟨st, tx, tf, some [], pft, nm⟩
        = (if get_shape_description ⟨st, tx, tf, some [], pft, nm⟩ != "" then
            { acc with otherShapes :=
                acc.otherShapes ++ [get_shape_description ⟨st, tx, tf, some [], pft, nm⟩] }
           else acc) := by
      simp [classifyStep, hc]
    rw [hst]; split <;> rfl
  | true =>
    cases hsk : (!acc.titleShapeFound && (⟨st, tx, tf, some [], pft, nm⟩ : Shape).text.isSome &&
        titleMatchB title ⟨st, tx, tf, some [], pft, nm⟩) with
    | true =>
      have hst : classifyStep title acc ⟨st, tx, tf, some [], pft, nm⟩
          = { acc with titleShapeFound := true } := by
        simp only [classifyStep, hc]
        rw [if_neg (by decide), if_pos hsk]
      rw [hst]
    | false =>
      have hst : classifyStep title acc ⟨st, tx, tf, some [], pft, nm⟩
          = (if (extract_table_data ⟨st, tx, tf, some [], pft, nm⟩).isEmpty then acc
             else { acc with tables :=
                      acc.tables ++ [extract_table_data ⟨st, tx, tf, some [], pft, nm⟩] }) := by
        simp only [classifyStep, hc]
        rw [if_neg (by decide), if_neg (by rw [hsk]; exact Bool.false_ne_true), if_pos (by rfl)]
      rw [hst]
      have hemp : (extract_table_data ⟨st, tx, tf, some [], pft, nm⟩).isEmpty = true := rfl
      rw [if_pos hemp]

/-- The three output queues of the classification loop. -/
def SlideAcc.queues (acc : SlideAcc) :
    List ContentSection × List (List (List String)) × List String :=
  (acc.contentSections, acc.tables, acc.otherShapes)

theorem classifyStep_skip (title : String) (acc : SlideAcc) (s : Shape)
    (hfound : acc.titleShapeFound = false) (he : skipEligibleB title s = true) :
    classifyStep title acc s = { acc with titleShapeFound := true } := by
  rw [skipEligibleB, Bool.and_eq_true, Bool.and_eq_true] at he
  have hcond : (!acc.titleShapeFound && s.text.isSome && titleMatchB title s) = true := by
    rw [hfound, he.1.2, he.2]; rfl
  simp only [classifyStep, he.1.1]
  rw [if_neg (by decide), if_pos hcond]

theorem classifyStep_found_true (title : String) (s : Shape)
    (cs : List ContentSection) (ts : List (List (List String))) (os : List String) :
    (classifyStep title ⟨true, cs, ts, os⟩ s).titleShapeFound = true := by
  cases hc : hasContentB s with
  | false =>
    simp only [classifyStep, hc]
    rw [if_pos (by decide)]
    split <;> rfl
  | true =>
    simp only [classifyStep, hc]
    rw [if_neg (by decide), if_neg (by simp)]
    split
    · split <;> rfl
    · split <;> rfl

theorem classifyStep_noskip (title : String) (s : Shape) (he : skipEligibleB title s = false)
    (b : Bool) (cs : List ContentSection) (ts : List (List (List String))) (os : List String) :
    (classifyStep title ⟨b, cs, ts, os⟩ s).titleShapeFound = b ∧
    (classifyStep title ⟨b, cs, ts, os⟩ s).queues
      = (classifyStep title ⟨true, cs, ts, os⟩ s).queues := by
  cases hc : hasContentB s with
  | false =>
    have hbne : ((!false : Bool) = true) := rfl
    by_cases hdesc : (get_shape_description s != "") = true
    · constructor
      · simp only [classifyStep, hc]
        rw [if_pos hbne, if_pos hdesc]
      · simp only [classifyStep, hc]
        rw [if_pos hbne, if_pos hdesc, if_pos hbne, if_pos hdesc]
        rfl
    · constructor
      · simp only [classifyStep, hc]
        rw [if_pos hbne, if_neg hdesc]
      · simp only [classifyStep, hc]
        rw [if_pos hbne, if_neg hdesc, if_pos hbne, if_neg hdesc]
        rfl
  | true =>
    have hX : (s.text.isSome && titleMatchB title s) = false := by
      rw [skipEligibleB, hc, Bool.true_and] at he
      exact he
    have hcond : ∀ b' : Bool, (!b' && s.text.isSome && titleMatchB title s) = false := by
      intro b'
      cases hs : s.text.isSome <;> cases hm : titleMatchB title s <;> simp_all
    constructor
    · simp only [classifyStep, hc]
      rw [if_neg (by decide), if_neg (by rw [hcond b]; exact Bool.false_ne_true)]
      split
      · split <;> rfl
      · split <;> rfl
    · have h1 : ∀ b' : Bool, classifyStep title ⟨b', cs, ts, os⟩ s
          = (if s.table.isSome then
               (if (extract_table_data s).isEmpty then (⟨b', cs, ts, os⟩ : SlideAcc)
                else ⟨b', cs, ts ++ [extract_table_data s], os⟩)
             else
               (if (extract_paragraphs s).isEmpty then (⟨b', cs, ts, os⟩ : SlideAcc)
                else ⟨b', cs ++ [mkContentSection (extract_paragraphs s)], ts, os⟩)) := by
        intro b'
        simp [classifyStep, hc, hcond b']
      rw [h1 b, h1 true]
      split
      · split <;> rfl
      · split <;> rfl

theorem classifySlide_erase (title : String) :
    ∀ (shapes : List Shape) (cs : List ContentSection)
      (ts : List (List (List String))) (os : List String),
      (shapes.foldl (classifyStep title) ⟨false, cs, ts, os⟩).queues
        = ((shapes.eraseP (skipEligibleB title)).foldl (classifyStep title) ⟨true, cs, ts, os⟩).queues := by
  intro shapes
  induction shapes with
  | nil => intro cs ts os; rfl
  | cons s rest ih =>
    intro cs ts os
    cases he : skipEligibleB title s with
    | true =>
      rw [List.eraseP_cons_of_pos he, List.foldl_cons,
        classifyStep_skip title ⟨false, cs, ts, os⟩ s rfl he]
    | false =>
      rw [List.eraseP_cons_of_neg (by rw [he]; exact Bool.false_ne_true),
        List.foldl_cons, List.foldl_cons]
      have hns := classifyStep_noskip title s he false cs ts os
      have hA : classifyStep title ⟨false, cs, ts, os⟩ s
          = ⟨false, (classifyStep title ⟨true, cs, ts, os⟩ s).contentSections,
              (classifyStep title ⟨true, cs, ts, os⟩ s).tables,
              (classifyStep title ⟨true, cs, ts, os⟩ s).otherShapes⟩ := by
        have hq := hns.2
        rw [SlideAcc.queues, SlideAcc.queues, Prod.mk.injEq, Prod.mk.injEq] at hq
        calc classifyStep title ⟨false, cs, ts, os⟩ s
            = ⟨(classifyStep title ⟨false, cs, ts, os⟩ s).titleShapeFound,
               (classifyStep title ⟨false, cs, ts, os⟩ s).contentSections,
               (classifyStep title ⟨false, cs, ts, os⟩ s).tables,
               (classifyStep title ⟨false, cs, ts, os⟩ s).otherShapes⟩ := rfl
          _ = _ := by rw [hns.1, hq.1, hq.2.1, hq.2.2]
      have hB : classifyStep title ⟨true, cs, ts, os⟩ s
          = ⟨(classifyStep title ⟨true, cs, ts, os⟩ s).titleShapeFound,
              (classifyStep title ⟨true, cs, ts, os⟩ s).contentSections,
              (classifyStep title ⟨true, cs, ts, os⟩ s).tables,
              (classifyStep title ⟨true, cs, ts, os⟩ s).otherShapes⟩ := rfl
      rw [hA, hB, classifyStep_found_true]
      exact ih _ _ _

theorem classifySlide_found (title : String) :
    ∀ (shapes : List Shape) (b : Bool) (cs : List ContentSection)
      (ts : List (List (List String))) (os : List String),
      (shapes.foldl (classifyStep title) ⟨b, cs, ts, os⟩).titleShapeFound
        = (b || shapes.any (skipEligibleB title)) := by
  intro shapes
  induction shapes with
  | nil => intro b cs ts os; simp
  | cons s rest ih =>
    intro b cs ts os
    rw [List.foldl_cons, List.any_cons]
    cases b with
    | true =>
      have hB : classifyStep title ⟨true, cs, ts, os⟩ s
          = ⟨(classifyStep title ⟨true, cs, ts, os⟩ s).titleShapeFound,
              (classifyStep title ⟨true, cs, ts, os⟩ s).contentSections,
              (classifyStep title ⟨true, cs, ts, os⟩ s).tables,
              (classifyStep title ⟨true, cs, ts, os⟩ s).otherShapes⟩ := rfl
      rw [hB, classifyStep_found_true]
      rw [ih true]
      simp
    | false =>
      cases he : skipEligibleB title s with
      | true =>
        rw [classifyStep_skip title ⟨false, cs, ts, os⟩ s rfl he]
        show (List.foldl (classifyStep title) ⟨true, cs, ts, os⟩ rest).titleShapeFound = _
        rw [ih true]
        simp [he]
      | false =>
        have hns := classifyStep_noskip title s he false cs ts os
        have hA : classifyStep title ⟨false, cs, ts, os⟩ s
            = ⟨false, (classifyStep title ⟨false, cs, ts, os⟩ s).contentSections,
                (classifyStep title ⟨false, cs, ts, os⟩ s).tables,
                (classifyStep title ⟨false, cs, ts, os⟩ s).otherShapes⟩ := by
          calc classifyStep title ⟨false, cs, ts, os⟩ s
              = ⟨(classifyStep title ⟨false, cs, ts, os⟩ s).titleShapeFound,
                 (classifyStep title ⟨false, cs, ts, os⟩ s).contentSections,
                 (classifyStep title ⟨false, cs, ts, os⟩ s).tables,
                 (classifyStep title ⟨false, cs, ts, os⟩ s).otherShapes⟩ := rfl
            _ = _ := by rw [hns.1]
        rw [hA, ih false]
        simp [he]

/-- C2 counterexample: with a Title placeholder whose text is exactly
100 characters long, the resolved title equals that text and the
placeholder shape is nevertheless skipped (it contributes nothing to any
queue), although its text is not under 100 characters — the under-100
guard does not apply to the exact-equality branch. -/
theorem C2_counterexample :
    (pytrim (String.mk (List.replicate 100 'a'))).data.length = 100 ∧
    get_slide_title [⟨ShapeType.placeholder, some (String.mk (List.replicate 100 'a')),
        some [⟨String.mk (List.replicate 100 'a'), 0, none, none⟩], none, some 15, "Title 1"⟩]
      = String.mk (List.replicate 100 'a') ∧
    (classifySlide (String.mk (List.replicate 100 'a'))
        [⟨ShapeType.placeholder, some (String.mk (List.replicate 100 'a')),
          some [⟨String.mk (List.replicate 100 'a'), 0, none, none⟩], none, some 15, "Title 1"⟩]).queues
      = ([], [], []) ∧
    (classifySlide (String.mk (List.replicate 100 'a'))
        [⟨ShapeType.placeholder, some (String.mk (List.replicate 100 'a')),
          some [⟨String.mk (List.replicate 100 'a'), 0, none, none⟩], none, some 15, "Title 1"⟩]).titleShapeFound
      = true := by
  refine ⟨by decide, by decide, by decide, by decide⟩

/-- C2 amended: during classification, exactly the first shape that has
content, has a text attribute, and whose trimmed text either exactly
equals the resolved title (regardless of length) or is under 100
characters and a substring of the title, is skipped; the under-100 guard
applies only to the substring branch.  The queues produced equal those
obtained by deleting that first matching shape and disabling skipping,
and later matching shapes are processed normally; the skip flag is set
exactly when some shape is skip-eligible. -/
theorem C2_first_match_skipped (title : String) (shapes : List Shape) :
    (∀ s : Shape, skipEligibleB title s
      = (hasContentB s && s.text.isSome &&
          (pytrim (s.text.getD "") == title ||
            ((pytrim (s.text.getD "")).data.length < 100 && pyIn (pytrim (s.text.getD "")) title)))) ∧
    (classifySlide title shapes).queues
      = ((shapes.eraseP (skipEligibleB title)).foldl (classifyStep title) ⟨true, [], [], []⟩).queues ∧
    (classifySlide title shapes).titleShapeFound = shapes.any (skipEligibleB title) := by
  refine ⟨fun s => rfl, ?_, ?_⟩
  · exact classifySlide_erase title shapes [] [] []
  · have h := classifySlide_found title shapes false [] [] []
    rw [Bool.false_or] at h
    exact h

theorem paraLines_foldl (b : Nat) :
    ∀ (ps : List ParaInfo) (acc : List String),
      ps.foldl
        (fun lines para =>
          match paraLine b para with
          | some l => lines ++ [l]
          | none => lines) acc
      = acc ++ ps.filterMap (paraLine b) := by
  intro ps
  induction ps with
  | nil => intro acc; simp
  | cons p rest ih =>
    intro acc
    rw [List.foldl_cons, List.filterMap_cons]
    cases h : paraLine b p with
    | none => rw [ih]
    | some l => rw [ih]; simp

/-- C5 counterexample: a non-bullet paragraph whose raw text has 79
characters (one of them a backslash) is under 80 characters, yet it
renders as a plain line, not as a sub-heading — the code measures the
escaped text, which has 80 characters here. -/
theorem C5_counterexample :
    (⟨String.mk (List.replicate 78 'a') ++ "\\", 0, false, none, false⟩ : ParaInfo).is_bullet
        = false ∧
    (⟨String.mk (List.replicate 78 'a') ++ "\\", 0, false, none, false⟩ : ParaInfo).text.data.length
        = 79 ∧
    paragraphs_to_markdown [⟨String.mk (List.replicate 78 'a') ++ "\\", 0, false, none, false⟩] 2
      = sanitize_markdown (String.mk (List.replicate 78 'a') ++ "\\") ∧
    (sanitize_markdown (String.mk (List.replicate 78 'a') ++ "\\")).data.length = 80 ∧
    isPrefixB "##".data
      (paragraphs_to_markdown
        [⟨String.mk (List.replicate 78 'a') ++ "\\", 0, false, none, false⟩] 2).data = false := by
  refine ⟨rfl, by decide, by decide, by decide, by decide⟩

/-- C5 amended: paragraph rendering is applied independently per
paragraph — the rendered body is the per-paragraph renderings joined by
newlines — and one paragraph renders as a sub-heading exactly when it is
non-bullet and its text **after backslash-escaping** is under 80
characters, as an indented bullet line (two spaces per level) when its
bullet flag is set, and as a plain line otherwise. -/
theorem C5_paragraph_rendering (ps : List ParaInfo) (b : Nat) :
    paragraphs_to_markdown ps b = pyJoin "\n" (ps.filterMap (renderParaSpec b)) ∧
    (∀ p : ParaInfo, renderParaSpec b p
      = (if sanitize_markdown p.text = "" then none
         else if !p.is_bullet && (sanitize_markdown p.text).data.length < 80 then
           some (hashes b ++ " " ++ sanitize_markdown p.text)
         else if p.is_bullet then
           some (indentSpaces p.level ++ "* " ++ sanitize_markdown p.text)
         else some (sanitize_markdown p.text))) := by
  constructor
  · cases hps : ps with
    | nil => rfl
    | cons p rest =>
      have hne : (p :: rest).isEmpty = false := rfl
      rw [paragraphs_to_markdown, hne]
      rw [if_neg (by decide)]
      rw [paraLines_foldl]
      rfl
  · intro p
    rfl

theorem pyJoin_foldl_exists (sep : String) :
    ∀ (xs : List String) (acc : String),
      ∃ r : String, xs.foldl (fun a y => a ++ sep ++ y) acc = acc ++ r := by
  intro xs
  induction xs with
  | nil =>
    intro acc
    exact ⟨"", (String.append_empty acc).symm⟩
  | cons y ys ih =>
    intro acc
    obtain ⟨r, hr⟩ := ih (acc ++ sep ++ y)
    refine ⟨sep ++ y ++ r, ?_⟩
    rw [List.foldl_cons, hr]
    rw [String.append_assoc, String.append_assoc, String.append_assoc]

theorem pyJoin_cons_exists (sep x : String) (xs : List String) :
    ∃ r : String, pyJoin sep (x :: xs) = x ++ r := by
  rw [pyJoin]
  exact pyJoin_foldl_exists sep xs x

theorem pyJoin_append_exists (sep x : String) (l1 l2 : List String) :
    ∃ r : String, pyJoin sep ((x :: l1) ++ l2) = pyJoin sep (x :: l1) ++ r := by
  rw [List.cons_append, pyJoin, pyJoin, List.foldl_append]
  exact pyJoin_foldl_exists sep l2 _

/-- C4 counterexample: a slide title containing a backslash is inserted
into the slide heading verbatim, without doubling the backslash. -/
theorem C4_counterexample :
    get_slide_title [⟨ShapeType.placeholder, some "a\\b",
        some [⟨"a\\b", 0, none, none⟩], none, some 15, "T"⟩] = "a\\b" ∧
    process_slide ordDedup
        [⟨ShapeType.placeholder, some "a\\b",
          some [⟨"a\\b", 0, none, none⟩], none, some 15, "T"⟩] 1
      = "\n# Slide 1 - a\\b\n" ∧
    pyIn "a\\\\b"
      (process_slide ordDedup
        [⟨ShapeType.placeholder, some "a\\b",
          some [⟨"a\\b", 0, none, none⟩], none, some 15, "T"⟩] 1) = false := by
  refine ⟨by decide, by decide, by decide⟩

/-- C4 amended: backslash-doubling is applied to paragraph body text,
inferred section headings and table cells, and table cells are
additionally pipe-escaped; but slide titles, the document title, the
provenance line and the visual-element descriptions are inserted
verbatim, and no other characters are escaped (`sanitize_markdown` only
adds one character per backslash and fixes backslash-free text). -/
theorem C4_escaping_sites :
    (∀ (setOrder : List String → List String) (shapes : List Shape) (n : Nat),
      ∃ r : String, process_slide setOrder shapes n
        = "\n# Slide " ++ Nat.repr n ++ " - " ++ get_slide_title shapes ++ "\n" ++ r) ∧
    (∀ (setOrder : List String → List String) (stem nm : String) (slides : List (List Shape)),
      ∃ r : String, render_document setOrder stem nm slides
        = pyJoin "\n" ["# " ++ stem ++ "\n", "*Converted from " ++ nm ++ "*\n", "---\n"] ++ r) ∧
    (∀ cell : String, table_to_markdown [[cell]]
      = "| " ++ escapePipes (sanitize_markdown cell) ++ " |" ++ "\n" ++ "|---|") ∧
    (∀ (t : String) (lvl : Nat) (fs : Option Nat) (u : Bool),
      paragraphs_to_markdown [⟨t, lvl, true, fs, u⟩] 3
        = (if sanitize_markdown t = "" then ""
           else indentSpaces lvl ++ "* " ++ sanitize_markdown t)) ∧
    (∀ (t : String) (ps : List ParaInfo), t ≠ "" →
      (renderSection ⟨some t, ps⟩).head? = some ("\n## " ++ sanitize_markdown t)) ∧
    (∀ d : String, renderOthers ordDedup [d] = ["\n## Visual Elements\n", "- " ++ d, ""]) ∧
    (∀ s : String, (sanitize_markdown s).data.length
        = s.data.length + s.data.count '\\') := by
  refine ⟨?_, ?_, ?_, ?_, ?_, ?_, ?_⟩
  · intro setOrder shapes n
    rw [process_slide]
    exact pyJoin_cons_exists "\n" _ _
  · intro setOrder stem nm slides
    rw [render_document]
    exact pyJoin_append_exists "\n" _ _ _
  · intro cell
    show (("| " ++ escapePipes (sanitize_markdown cell) ++ " |") ++ "\n")
          ++ ("|" ++ "---" ++ "|")
        = "| " ++ escapePipes (sanitize_markdown cell) ++ " |" ++ "\n" ++ "|---|"
    rw [show ("|" ++ "---" ++ "|" : String) = "|---|" from by decide]
  · intro t lvl fs u
    by_cases h : sanitize_markdown t = ""
    · rw [if_pos h]
      have hline : paraLine 3 (⟨t, lvl, true, fs, u⟩ : ParaInfo) = none := by
        rw [paraLine]
        simp only [if_pos h]
      rw [paragraphs_to_markdown]
      simp only [List.isEmpty_cons, Bool.false_eq_true, if_false]
      rw [paraLines_foldl]
      rw [List.filterMap_cons, hline]
      rfl
    · rw [if_neg h]
      have hline : paraLine 3 (⟨t, lvl, true, fs, u⟩ : ParaInfo)
          = some (indentSpaces lvl ++ "* " ++ sanitize_markdown t) := by
        rw [paraLine]
        simp only [if_neg h]
        rfl
      rw [paragraphs_to_markdown]
      simp only [List.isEmpty_cons, Bool.false_eq_true, if_false]
      rw [paraLines_foldl]
      rw [List.filterMap_cons, hline]
      rfl
  · intro t ps ht
    rw [renderSection]
    simp only [if_neg ht]
    rfl
  · intro d
    rfl
  · intro s
    rw [sanitize_markdown]
    show (s.data.foldr (fun c acc => if c = '\\' then '\\' :: '\\' :: acc else c :: acc) []).length
      = s.data.length + s.data.count '\\'
    induction s.data with
    | nil => rfl
    | cons c cs ih =>
      rw [List.foldr_cons]
      by_cases hc : c = '\\'
      · rw [if_pos hc]
        subst hc
        rw [List.length_cons, List.length_cons, ih, List.length_cons, List.count_cons_self]
        omega
      · rw [if_neg hc]
        rw [List.length_cons, ih, List.length_cons, List.count_cons_of_ne (Ne.symm hc)]
        omega

theorem hasContentB_scrub (s : Shape) : hasContentB (scrubShape s) = hasContentB s := rfl

theorem text_scrub (s : Shape) : (scrubShape s).text = s.text := rfl

theorem table_scrub (s : Shape) : (scrubShape s).table = s.table := rfl

theorem titleMatchB_scrub (title : String) (s : Shape) :
    titleMatchB title (scrubShape s) = titleMatchB title s := rfl

theorem extract_table_data_scrub (s : Shape) :
    extract_table_data (scrubShape s) = extract_table_data s := rfl

theorem get_shape_description_scrub (s : Shape) :
    get_shape_description (scrubShape s) = get_shape_description s := rfl

theorem scrubAcc_found (acc : SlideAcc) :
    (scrubAcc acc).titleShapeFound = acc.titleShapeFound := rfl

theorem extract_paragraphs_scrub (s : Shape) :
    extract_paragraphs (scrubShape s) = (extract_paragraphs s).map scrubInfo := by
  cases htf : s.textFrame with
  | none =>
    have h1 : (scrubShape s).textFrame = none := by rw [scrubShape, htf]; rfl
    rw [extract_paragraphs, extract_paragraphs, h1, htf]
    rfl
  | some ps =>
    have h1 : (scrubShape s).textFrame = some (ps.map scrubParagraph) := by
      rw [scrubShape, htf]; rfl
    rw [extract_paragraphs, extract_paragraphs, h1, htf]
    change List.filterMap _ (List.map scrubParagraph ps) = List.map scrubInfo (List.filterMap _ ps)
    rw [List.filterMap_map, List.map_filterMap]
    apply List.filterMap_congr
    intro p _
    show (if pytrim (scrubParagraph p).text = "" then none else _) = _
    by_cases hz : pytrim p.text = ""
    · rw [if_pos (by rw [scrubParagraph]; exact hz), if_pos hz]
      rfl
    · rw [if_neg (by rw [scrubParagraph]; exact hz), if_neg hz]
      rfl

theorem markSectionHeader_scrub (ps : List ParaInfo) :
    markSectionHeader (ps.map scrubInfo)
      = ((markSectionHeader ps).1, (markSectionHeader ps).2.map scrubInfo) := by
  induction ps with
  | nil => rfl
  | cons p rest ih =>
    rw [List.map_cons, markSectionHeader, markSectionHeader]
    by_cases hp : (!p.is_bullet && p.text.data.length < 50) = true
    · rw [if_pos (show (!(scrubInfo p).is_bullet &&
          ((scrubInfo p).text.data.length < 50 : Bool)) = true from hp), if_pos hp]
      rfl
    · rw [if_neg (show ¬((!(scrubInfo p).is_bullet &&
          ((scrubInfo p).text.data.length < 50 : Bool)) = true) from hp), if_neg hp]
      rw [ih]
      rfl

theorem mkContentSection_scrub (ps : List ParaInfo) :
    mkContentSection (ps.map scrubInfo) = scrubSection (mkContentSection ps) := by
  rw [mkContentSection, mkContentSection, markSectionHeader_scrub]
  rfl

theorem paraLine_scrub (b : Nat) (p : ParaInfo) : paraLine b (scrubInfo p) = paraLine b p := rfl

theorem paragraphs_to_markdown_scrub (ps : List ParaInfo) (b : Nat) :
    paragraphs_to_markdown (ps.map scrubInfo) b = paragraphs_to_markdown ps b := by
  rw [(C5_paragraph_rendering (ps.map scrubInfo) b).1, (C5_paragraph_rendering ps b).1]
  rw [List.filterMap_map]
  rfl

theorem isEmptyMap {A B : Type} (f : A → B) (l : List A) :
    (l.map f).isEmpty = l.isEmpty := by
  cases l <;> rfl

theorem renderSection_scrub (cs : ContentSection) :
    renderSection (scrubSection cs) = renderSection cs := by
  rw [renderSection, renderSection]
  have h1 : (scrubSection cs).title = cs.title := rfl
  have h2 : (scrubSection cs).paragraphs.filter (fun p => !p.used_as_header)
      = (cs.paragraphs.filter (fun p => !p.used_as_header)).map scrubInfo := by
    rw [scrubSection]
    show (cs.paragraphs.map scrubInfo).filter _ = _
    rw [List.filter_map]
    rfl
  rw [h1, h2, isEmptyMap, paragraphs_to_markdown_scrub]

theorem renderSections_scrub (secs : List ContentSection) :
    renderSections (secs.map scrubSection) = renderSections secs := by
  induction secs with
  | nil => rfl
  | cons c rest ih =>
    rw [List.map_cons, renderSections, renderSections, List.foldr_cons, List.foldr_cons]
    rw [renderSection_scrub]
    show renderSection c ++ renderSections (rest.map scrubSection) = _
    rw [ih]
    rfl

theorem classifyStep_scrub (title : String) (acc : SlideAcc) (s : Shape) :
    classifyStep title (scrubAcc acc) (scrubShape s) = scrubAcc (classifyStep title acc s) := by
  cases hc : hasContentB s with
  | false =>
    have hc' : hasContentB (scrubShape s) = false := by rw [hasContentB_scrub, hc]
    have hstL : classifyStep title (scrubAcc acc) (scrubShape s)
        = (if get_shape_description (scrubShape s) != "" then
            { scrubAcc acc with otherShapes :=
                (scrubAcc acc).otherShapes ++ [get_shape_description (scrubShape s)] }
           else scrubAcc acc) := by
      simp [classifyStep, hc']
    have hstR : classifyStep title acc s
        = (if get_shape_description s != "" then
            { acc with otherShapes := acc.otherShapes ++ [get_shape_description s] }
           else acc) := by
      simp [classifyStep, hc]
    rw [hstL, hstR, get_shape_description_scrub]
    by_cases hd : (get_shape_description s != "") = true
    · rw [if_pos hd, if_pos hd]
      rfl
    · rw [if_neg hd, if_neg hd]
  | true =>
    have hc' : hasContentB (scrubShape s) = true := by rw [hasContentB_scrub, hc]
    have hskipEq : (!(scrubAcc acc).titleShapeFound && (scrubShape s).text.isSome &&
        titleMatchB title (scrubShape s))
        = (!acc.titleShapeFound && s.text.isSome && titleMatchB title s) := rfl
    by_cases hskip : (!acc.titleShapeFound && s.text.isSome && titleMatchB title s) = true
    · have hstL : classifyStep title (scrubAcc acc) (scrubShape s)
          = { scrubAcc acc with titleShapeFound := true } := by
        simp only [classifyStep, hc']
        rw [if_neg (by decide), if_pos (by rw [hskipEq]; exact hskip)]
      have hstR : classifyStep title acc s = { acc with titleShapeFound := true } := by
        simp only [classifyStep, hc]
        rw [if_neg (by decide), if_pos hskip]
      rw [hstL, hstR]
      rfl
    · cases ht : s.table.isSome with
      | true =>
        have hstL : classifyStep title (scrubAcc acc) (scrubShape s)
            = (if (extract_table_data (scrubShape s)).isEmpty then scrubAcc acc
               else { scrubAcc acc with tables :=
                        (scrubAcc acc).tables ++ [extract_table_data (scrubShape s)] }) := by
          simp only [classifyStep, hc']
          rw [if_neg (by decide), if_neg (by rw [hskipEq]; exact hskip),
            if_pos (show (scrubShape s).table.isSome = true from by rw [table_scrub, ht])]
        have hstR : classifyStep title acc s
            = (if (extract_table_data s).isEmpty then acc
               else { acc with tables := acc.tables ++ [extract_table_data s] }) := by
          simp only [classifyStep, hc]
          rw [if_neg (by decide), if_neg hskip, if_pos ht]
        rw [hstL, hstR, extract_table_data_scrub]
        by_cases he : ((extract_table_data s).isEmpty = true)
        · rw [if_pos he, if_pos he]
        · rw [if_neg he, if_neg he]
          rfl
      | false =>
        have hstL : classifyStep title (scrubAcc acc) (scrubShape s)
            = (if (extract_paragraphs (scrubShape s)).isEmpty then scrubAcc acc
               else { scrubAcc acc with contentSections :=
                        (scrubAcc acc).contentSections
                          ++ [mkContentSection (extract_paragraphs (scrubShape s))] }) := by
          simp only [classifyStep, hc']
          rw [if_neg (by decide), if_neg (by rw [hskipEq]; exact hskip),
            if_neg (show ¬((scrubShape s).table.isSome = true) from by
              rw [table_scrub, ht]; exact Bool.false_ne_true)]
        have hstR : classifyStep title acc s
            = (if (extract_paragraphs s).isEmpty then acc
               else { acc with contentSections :=
                        acc.contentSections ++ [mkContentSection (extract_paragraphs s)] }) := by
          simp only [classifyStep, hc]
          rw [if_neg (by decide), if_neg hskip, if_neg (by rw [ht]; exact Bool.false_ne_true)]
        rw [hstL, hstR, extract_paragraphs_scrub, isEmptyMap]
        by_cases he : ((extract_paragraphs s).isEmpty = true)
        · rw [if_pos he, if_pos he]
        · rw [if_neg he, if_neg he]
          rw [mkContentSection_scrub]
          simp only [scrubAcc, List.map_append]
          rfl

theorem classifySlide_scrub_fold (title : String) :
    ∀ (shapes : List Shape) (acc : SlideAcc),
      (shapes.map scrubShape).foldl (classifyStep title) (scrubAcc acc)
        = scrubAcc (shapes.foldl (classifyStep title) acc) := by
  intro shapes
  induction shapes with
  | nil => intro acc; rfl
  | cons s rest ih =>
    intro acc
    rw [List.map_cons, List.foldl_cons, List.foldl_cons, classifyStep_scrub]
    exact ih (classifyStep title acc s)

theorem findTitlePlaceholderText_scrub (shapes : List Shape) :
    findTitlePlaceholderText (shapes.map scrubShape) = findTitlePlaceholderText shapes := by
  induction shapes with
  | nil => rfl
  | cons s rest ih =>
    rw [List.map_cons, findTitlePlaceholderText, findTitlePlaceholderText]
    have hx : (scrubShape s).text = s.text := rfl
    cases htx : s.text with
    | none => rw [hx, htx]; exact ih
    | some t =>
      rw [hx, htx]
      have hph : titleHeaderPlaceholderB (scrubShape s) = titleHeaderPlaceholderB s := rfl
      rw [hph, ih]

theorem findFallbackTitle_scrub (shapes : List Shape) :
    findFallbackTitle (shapes.map scrubShape) = findFallbackTitle shapes := by
  induction shapes with
  | nil => rfl
  | cons s rest ih =>
    rw [List.map_cons, findFallbackTitle, findFallbackTitle]
    have hx : (scrubShape s).text = s.text := rfl
    cases htx : s.text with
    | none => rw [hx, htx]; exact ih
    | some t =>
      rw [hx, htx, ih]

theorem get_slide_title_scrub (shapes : List Shape) :
    get_slide_title (shapes.map scrubShape) = get_slide_title shapes := by
  rw [get_slide_title, get_slide_title, findTitlePlaceholderText_scrub, findFallbackTitle_scrub]

theorem process_slide_scrub (setOrder : List String → List String)
    (shapes : List Shape) (n : Nat) :
    process_slide setOrder (shapes.map scrubShape) n = process_slide setOrder shapes n := by
  rw [process_slide, process_slide, get_slide_title_scrub]
  have hacc : classifySlide (get_slide_title shapes) (shapes.map scrubShape)
      = scrubAcc (classifySlide (get_slide_title shapes) shapes) := by
    rw [classifySlide, classifySlide]
    have h0 : (initAcc : SlideAcc) = scrubAcc initAcc := rfl
    nth_rewrite 1 [h0]
    rw [classifySlide_scrub_fold]
  rw [hacc]
  have h1 : (scrubAcc (classifySlide (get_slide_title shapes) shapes)).contentSections
      = (classifySlide (get_slide_title shapes) shapes).contentSections.map scrubSection := rfl
  have h2 : (scrubAcc (classifySlide (get_slide_title shapes) shapes)).tables
      = (classifySlide (get_slide_title shapes) shapes).tables := rfl
  have h3 : (scrubAcc (classifySlide (get_slide_title shapes) shapes)).otherShapes
      = (classifySlide (get_slide_title shapes) shapes).otherShapes := rfl
  rw [h1, h2, h3, renderSections_scrub]

theorem renderSlides_scrub (setOrder : List String → List String) :
    ∀ (slides : List (List Shape)) (n : Nat),
      renderSlides setOrder n (slides.map (fun sl => sl.map scrubShape))
        = renderSlides setOrder n slides := by
  intro slides
  induction slides with
  | nil => intro n; rfl
  | cons sl rest ih =>
    intro n
    rw [List.map_cons, renderSlides, renderSlides, process_slide_scrub]
    rw [ih]

theorem render_document_scrub (setOrder : List String → List String)
    (stem nm : String) (slides : List (List Shape)) :
    render_document setOrder stem nm (slides.map (fun sl => sl.map scrubShape))
      = render_document setOrder stem nm slides := by
  rw [render_document, render_document, renderSlides_scrub]

/-- C10: the recorded per-paragraph font size never influences the
rendered output — scrubbing all font sizes leaves every slide's markdown
unchanged, and two presentations that agree after scrubbing the font
sizes of their paragraphs produce identical markdown documents. -/
theorem C10_font_size_irrelevant :
    (∀ (setOrder : List String → List String) (shapes : List Shape) (n : Nat),
      process_slide setOrder (shapes.map scrubShape) n = process_slide setOrder shapes n) ∧
    (∀ (setOrder : List String → List String) (stem nm : String)
        (slides₁ slides₂ : List (List Shape)),
      slides₁.map (fun sl => sl.map scrubShape) = slides₂.map (fun sl => sl.map scrubShape) →
      render_document setOrder stem nm slides₁ = render_document setOrder stem nm slides₂) := by
  refine ⟨process_slide_scrub, ?_⟩
  intro setOrder stem nm slides₁ slides₂ h
  calc render_document setOrder stem nm slides₁
      = render_document setOrder stem nm (slides₁.map (fun sl => sl.map scrubShape)) :=
        (render_document_scrub setOrder stem nm slides₁).symm
    _ = render_document setOrder stem nm (slides₂.map (fun sl => sl.map scrubShape)) := by rw [h]
    _ = render_document setOrder stem nm slides₂ := render_document_scrub setOrder stem nm slides₂

/-- Witness for C10 at concrete inputs: two one-slide presentations that
differ only in a run's font size (18pt versus 44pt) render to the same
document. -/
theorem C10_font_size_irrelevant_witness :
    render_document ordDedup "deck" "deck.pptx"
        [[⟨ShapeType.other "TEXT_BOX (17)", some "Hello",
           some [⟨"Hello", 0, none, some 18⟩], none, none, "b"⟩]]
      = render_document ordDedup "deck" "deck.pptx"
        [[⟨ShapeType.other "TEXT_BOX (17)", some "Hello",
           some [⟨"Hello", 0, none, some 44⟩], none, none, "b"⟩]] :=
  (C10_font_size_irrelevant).2 ordDedup "deck" "deck.pptx"
    [[⟨ShapeType.other "TEXT_BOX (17)", some "Hello", some [⟨"Hello", 0, none, some 18⟩], none, none, "b"⟩]]
    [[⟨ShapeType.other "TEXT_BOX (17)", some "Hello", some [⟨"Hello", 0, none, some 44⟩], none, none, "b"⟩]]
    (by decide)

/-- A second concrete valid set order, iterating the deduplicated
elements in the reverse direction. -/
def ordDedupRev (xs : List String) : List String := xs.dedup.reverse

theorem validOrder_ordDedup : validOrder ordDedup := by
  intro xs
  exact ⟨List.nodup_dedup xs, fun a => List.mem_dedup⟩

theorem validOrder_ordDedupRev : validOrder ordDedupRev := by
  intro xs
  constructor
  · rw [ordDedupRev, List.nodup_reverse]
    exact List.nodup_dedup xs
  · intro a
    rw [ordDedupRev, List.mem_reverse]
    exact List.mem_dedup

/-- The decorative-description queue of one slide. -/
def slideOthers (shapes : List Shape) : List String :=
  (classifySlide (get_slide_title shapes) shapes).otherShapes

theorem validOrders_agree (f g : List String → List String)
    (hf : validOrder f) (hg : validOrder g)
    (xs : List String) (hone : xs.dedup.length ≤ 1) : f xs = g xs := by
  have hsub : ∀ a b : String, a ∈ xs → b ∈ xs → a = b := by
    intro a b ha hb
    have ha' : a ∈ xs.dedup := List.mem_dedup.mpr ha
    have hb' : b ∈ xs.dedup := List.mem_dedup.mpr hb
    cases hd : xs.dedup with
    | nil => rw [hd] at ha'; exact absurd ha' (List.not_mem_nil a)
    | cons x l =>
      have hl : l = [] := by
        rw [hd, List.length_cons] at hone
        have hz : l.length = 0 := by omega
        exact List.length_eq_zero.mp hz
      rw [hd, hl] at ha' hb'
      have h1 := List.mem_singleton.mp ha'
      have h2 := List.mem_singleton.mp hb'
      rw [h1, h2]
  rcases hf xs with ⟨hfn, hfm⟩
  rcases hg xs with ⟨hgn, hgm⟩
  cases hfx : f xs with
  | nil =>
    have hxe : ∀ a : String, a ∉ xs := by
      intro a ha
      have hma := (hfm a).mpr ha
      rw [hfx] at hma
      exact absurd hma (List.not_mem_nil a)
    cases hgx : g xs with
    | nil => rfl
    | cons b l2 =>
      have hb : b ∈ xs := (hgm b).mp (by rw [hgx]; exact List.mem_cons_self b l2)
      exact absurd hb (hxe b)
  | cons a l =>
    have ha : a ∈ xs := (hfm a).mp (by rw [hfx]; exact List.mem_cons_self a l)
    have hl : l = [] := by
      cases hcl : l with
      | nil => rfl
      | cons c l2 =>
        have hc : c ∈ f xs := by
          rw [hfx, hcl]
          exact List.mem_cons_of_mem _ (List.mem_cons_self c l2)
        have hcx : c ∈ xs := (hfm c).mp hc
        have hca : c = a := hsub c a hcx ha
        have hnl : a ∉ l := by
          rw [hfx] at hfn
          exact (List.nodup_cons.mp hfn).1
        rw [hcl] at hnl
        exact absurd (by rw [← hca]; exact List.mem_cons_self c l2) hnl
    cases hgx : g xs with
    | nil =>
      have hma : a ∈ g xs := (hgm a).mpr ha
      rw [hgx] at hma
      exact absurd hma (List.not_mem_nil a)
    | cons b l2 =>
      have hb : b ∈ xs := (hgm b).mp (by rw [hgx]; exact List.mem_cons_self b l2)
      have hl2 : l2 = [] := by
        cases hcl : l2 with
        | nil => rfl
        | cons c l3 =>
          have hc : c ∈ g xs := by
            rw [hgx, hcl]
            exact List.mem_cons_of_mem _ (List.mem_cons_self c l3)
          have hcx : c ∈ xs := (hgm c).mp hc
          have hcb : c = b := hsub c b hcx hb
          have hnl : b ∉ l2 := by
            rw [hgx] at hgn
            exact (List.nodup_cons.mp hgn).1
          rw [hcl] at hnl
          exact absurd (by rw [← hcb]; exact List.mem_cons_self c l3) hnl
      rw [hl, hl2, hsub a b ha hb]

theorem process_slide_order_congr (f g : List String → List String)
    (shapes : List Shape) (n : Nat)
    (h : f (slideOthers shapes) = g (slideOthers shapes)) :
    process_slide f shapes n = process_slide g shapes n := by
  show pyJoin "\n" (["\n# Slide " ++ Nat.repr n ++ " - " ++ get_slide_title shapes ++ "\n"] ++
      renderSections (classifySlide (get_slide_title shapes) shapes).contentSections ++
      renderTables (classifySlide (get_slide_title shapes) shapes).tables ++
      renderOthers f (classifySlide (get_slide_title shapes) shapes).otherShapes)
    = pyJoin "\n" (["\n# Slide " ++ Nat.repr n ++ " - " ++ get_slide_title shapes ++ "\n"] ++
      renderSections (classifySlide (get_slide_title shapes) shapes).contentSections ++
      renderTables (classifySlide (get_slide_title shapes) shapes).tables ++
      renderOthers g (classifySlide (get_slide_title shapes) shapes).otherShapes)
  rw [renderOthers, renderOthers,
    show f ((classifySlide (get_slide_title shapes) shapes).otherShapes)
      = g ((classifySlide (get_slide_title shapes) shapes).otherShapes) from h]

theorem renderSlides_order_congr (f g : List String → List String) :
    ∀ (slides : List (List Shape)) (n : Nat),
      (∀ sl ∈ slides, f (slideOthers sl) = g (slideOthers sl)) →
      renderSlides f n slides = renderSlides g n slides := by
  intro slides
  induction slides with
  | nil => intro n _; rfl
  | cons sl rest ih =>
    intro n h
    rw [renderSlides, renderSlides,
      process_slide_order_congr f g sl n (h sl (List.mem_cons_self sl rest)),
      ih (n + 1) (fun s hs => h s (List.mem_cons_of_mem sl hs))]

/-- C8 counterexample: two valid set-iteration orders (forward and
reversed deduplication) give different markdown for the same input
presentation — a slide with two distinct decorative shapes — so the
output is not a function of the input alone and two runs need not be
byte-identical. -/
theorem C8_counterexample :
    validOrder ordDedup ∧ validOrder ordDedupRev ∧
    render_document ordDedup "deck" "deck.pptx"
        [[⟨ShapeType.picture, none, none, none, none, "p1"⟩,
          ⟨ShapeType.chart, none, none, none, none, "c1"⟩]]
      ≠ render_document ordDedupRev "deck" "deck.pptx"
        [[⟨ShapeType.picture, none, none, none, none, "p1"⟩,
          ⟨ShapeType.chart, none, none, none, none, "c1"⟩]] := by
  refine ⟨validOrder_ordDedup, validOrder_ordDedupRev, ?_⟩
  decide

/-- C8 amended: the conversion is a deterministic function of the input
presentation **and** the set-iteration order used to deduplicate each
slide's Visual Elements list; two runs whose orders may differ still
produce byte-identical markdown whenever every slide has at most one
distinct decorative description (in general, only the ordering of each
slide's Visual Elements block may vary between runs). -/
theorem C8_determinism (f g : List String → List String)
    (hf : validOrder f) (hg : validOrder g) (stem nm : String)
    (slides : List (List Shape))
    (hone : ∀ sl ∈ slides, (slideOthers sl).dedup.length ≤ 1) :
    render_document f stem nm slides = render_document g stem nm slides := by
  rw [render_document, render_document,
    renderSlides_order_congr f g slides 1
      (fun sl hsl => validOrders_agree f g hf hg _ (hone sl hsl))]

/-- Witness for C8 at concrete inputs: on a presentation whose single
slide has one decorative shape, two different valid set orders give the
same document. -/
theorem C8_determinism_witness :
    render_document ordDedup "deck" "deck.pptx"
        [[⟨ShapeType.picture, none, none, none, none, "p1"⟩]]
      = render_document ordDedupRev "deck" "deck.pptx"
        [[⟨ShapeType.picture, none, none, none, none, "p1"⟩]] :=
  C8_determinism ordDedup ordDedupRev validOrder_ordDedup validOrder_ordDedupRev
    "deck" "deck.pptx" [[⟨ShapeType.picture, none, none, none, none, "p1"⟩]]
    (by
      intro sl hsl
      rw [List.mem_singleton] at hsl
      subst hsl
      decide)

end PptxToMd
